import Mathlib

/-!
Verification development for the realtime bookmark-sync logic of the
smart-bookmark-app repository. The definitions below are a shallow
embedding of the client-side state-sync code, chiefly
`src/components/DashboardClient.tsx` (the replica store: optimistic
mutations, realtime merge handlers, reconciliation fetch) and
`src/components/AddBookmarkForm` (`handleSubmit`, the local insert flow).
Theorems settle the specification's claims about this code.
-/

namespace BookmarkApp

/-- Record type from `src/types` (`Bookmark` interface): `favicon` is the
only optional field; all others are strings (UUIDs and timestamps are
opaque strings on the client). -/
structure Bookmark where
  id : String
  user_id : String
  title : String
  url : String
  favicon : Option String
  created_at : String
deriving DecidableEq, Repr

/-- Merge of a full-payload insert notification, from the realtime INSERT
handler of `DashboardClient.tsx` (lines 73-77): insert at head unless some
existing element already has the same `id`. -/
def mergeInsert (newBookmark : Bookmark) (prev : List Bookmark) : List Bookmark :=
  if prev.any (fun b => b.id == newBookmark.id) then prev
  else newBookmark :: prev

/-- Local optimistic add callback `handleAdd` of `DashboardClient.tsx`
(lines 110-115): same dedup head-insert as the realtime merge. -/
def handleAdd (newBookmark : Bookmark) (prev : List Bookmark) : List Bookmark :=
  if prev.any (fun b => b.id == newBookmark.id) then prev
  else newBookmark :: prev

/-- Local optimistic removal, the first statement of `handleDelete` in
`DashboardClient.tsx` (line 119): `prev.filter((b) => b.id !== id)`. -/
def handleDeleteOptimistic (id : String) (prev : List Bookmark) : List Bookmark :=
  prev.filter (fun b => b.id != id)

/-- Realtime INSERT payload handler of `DashboardClient.tsx` (lines 69-82).
The JavaScript guard `payload.new && payload.new.id` treats a missing
payload and an empty-string `id` alike (empty string is falsy), so the
payload is modelled as `Option Bookmark` and the guard as `b.id ≠ ""`.
Returns the new snapshot together with a flag that is `true` exactly when
the fallback reconciliation refetch was requested. -/
def insertHandler (payloadNew : Option Bookmark) (prev : List Bookmark) :
    List Bookmark × Bool :=
  match payloadNew with
  | some b => if b.id ≠ "" then (mergeInsert b prev, false) else (prev, true)
  | none => (prev, true)

/-- Realtime DELETE payload handler of `DashboardClient.tsx` (lines 92-98):
if `payload.old` carries a (truthy) `id`, filter it out of the snapshot;
otherwise request a reconciliation refetch. -/
def deleteHandler (payloadOld : Option Bookmark) (prev : List Bookmark) :
    List Bookmark × Bool :=
  match payloadOld with
  | some b => if b.id ≠ "" then (prev.filter (fun x => x.id != b.id), false)
    else (prev, true)
  | none => (prev, true)

/-- State update performed when a reconciliation fetch completes, from
`fetchBookmarks` in `DashboardClient.tsx` (lines 41-48): the result `data`
replaces the snapshot wholesale when present (`if (data) setBookmarks(data)`),
and a fetch that returned no data leaves the snapshot untouched. -/
def fetchApply (data : Option (List Bookmark)) (bookmarks : List Bookmark) :
    List Bookmark :=
  match data with
  | some d => d
  | none => bookmarks

/-- Invariant of the replica snapshot: no two elements share an `id`. -/
def NodupIds (s : List Bookmark) : Prop := (s.map Bookmark.id).Nodup

instance (s : List Bookmark) : Decidable (NodupIds s) :=
  inferInstanceAs (Decidable (s.map Bookmark.id).Nodup)

/-- Concrete sample record used by witnesses and counterexamples. -/
def bkA : Bookmark :=
  { id := "a1", user_id := "u1", title := "A", url := "https://a.test",
    favicon := none, created_at := "2026-01-01T00:00:00Z" }

/-- Second concrete sample record. -/
def bkB : Bookmark :=
  { id := "b2", user_id := "u1", title := "B", url := "https://b.test",
    favicon := some "https://b.test/icon", created_at := "2026-01-02T00:00:00Z" }

/-- Concrete payload as delivered when row-level security redacts the row
contents: the object exists but its `id` is absent (falsy). -/
def bkRedacted : Bookmark :=
  { id := "", user_id := "", title := "", url := "", favicon := none,
    created_at := "" }

lemma any_id_eq_iff (s : List Bookmark) (b : Bookmark) :
    s.any (fun x => x.id == b.id) = true ↔ ∃ x ∈ s, x.id = b.id := by
  simp [List.any_eq_true]

/-- C5. For every record and every snapshot, merging a full-payload insert
notification leaves the snapshot unchanged exactly when an existing
element already shares the record's `id`, and inserts at the head exactly
when none does; the merge is idempotent on every snapshot; and a local
optimistic insert of a record not yet in the snapshot followed by the
broadcast notification for the same record leaves exactly one copy of it. -/
theorem mergeInsert_dedup_idempotent (b : Bookmark) (s : List Bookmark) :
    (mergeInsert b s = s ↔ ∃ x ∈ s, x.id = b.id) ∧
    (mergeInsert b s = b :: s ↔ ¬ ∃ x ∈ s, x.id = b.id) ∧
    mergeInsert b (mergeInsert b s) = mergeInsert b s ∧
    ((¬ ∃ x ∈ s, x.id = b.id) →
      (mergeInsert b (handleAdd b s)).countP (fun y => y.id == b.id) = 1) := by
  have hcons : b :: s ≠ s := List.cons_ne_self b s
  refine ⟨?_, ?_, ?_, ?_⟩
  · constructor
    · intro h
      by_contra hno
      rw [mergeInsert, if_neg] at h
      · exact hcons h
      · rw [any_id_eq_iff]; exact hno
    · intro h
      rw [mergeInsert, if_pos ((any_id_eq_iff s b).mpr h)]
  · constructor
    · intro h hex
      rw [mergeInsert, if_pos ((any_id_eq_iff s b).mpr hex)] at h
      exact hcons h.symm
    · intro h
      rw [mergeInsert, if_neg]
      rw [any_id_eq_iff]; exact h
  · by_cases h : s.any (fun x => x.id == b.id)
    · simp [mergeInsert, h]
    · have hf : s.any (fun x => x.id == b.id) = false := by simpa using h
      have h1 : mergeInsert b s = b :: s := by
        rw [mergeInsert, if_neg (by simp [hf])]
      rw [h1, mergeInsert, if_pos (by simp [List.any_cons])]
  · intro hfresh
    have hany : s.any (fun x => x.id == b.id) = false := by
      rw [← Bool.not_eq_true, any_id_eq_iff]; exact hfresh
    have hadd : handleAdd b s = b :: s := by
      rw [handleAdd, if_neg (by simp [hany])]
    have hmerge : mergeInsert b (b :: s) = b :: s := by
      rw [mergeInsert, if_pos]
      simp [List.any_cons]
    rw [hadd, hmerge, List.countP_cons, List.countP_eq_zero.mpr]
    · simp
    · intro a ha
      simp only [beq_iff_eq]
      intro hid
      exact hfresh ⟨a, ha, hid⟩

/-- Witness for `mergeInsert_dedup_idempotent`: the full statement at a
concrete record and snapshot, with the freshness hypothesis of the
one-copy conjunct discharged concretely. -/
theorem mergeInsert_dedup_idempotent_witness :
    (¬ ∃ x ∈ [bkB], x.id = bkA.id) ∧
    ((mergeInsert bkA [bkB] = [bkB] ↔ ∃ x ∈ [bkB], x.id = bkA.id) ∧
     (mergeInsert bkA [bkB] = bkA :: [bkB] ↔ ¬ ∃ x ∈ [bkB], x.id = bkA.id) ∧
     mergeInsert bkA (mergeInsert bkA [bkB]) = mergeInsert bkA [bkB]) ∧
    (mergeInsert bkA (handleAdd bkA [bkB])).countP (fun y => y.id == bkA.id) = 1 :=
  ⟨by decide,
   ⟨(mergeInsert_dedup_idempotent bkA [bkB]).1,
    (mergeInsert_dedup_idempotent bkA [bkB]).2.1,
    (mergeInsert_dedup_idempotent bkA [bkB]).2.2.1⟩,
   (mergeInsert_dedup_idempotent bkA [bkB]).2.2.2 (by decide)⟩

lemma deleteHandler_present (bk : Bookmark) (hne : bk.id ≠ "") (s : List Bookmark) :
    deleteHandler (some bk) s = (s.filter (fun x => x.id != bk.id), false) := by
  rw [deleteHandler, if_pos hne]

/-- C6. Merging a delete notification whose payload carries an `id` removes
the element with that `id` when present and is an idempotent no-op when it
is absent; the local optimistic delete applies the same removal, so either
interleaving of a local delete of `X` and a remote delete-hint for `X`
yields the same snapshot, from which `X` is absent. There is no failure
path: both operations are total functions on the snapshot, so the second
delete cannot raise an error. -/
theorem deleteMerge_idempotent_orderIndependent (s s2 : List Bookmark)
    (X : String) (bk : Bookmark) (hbk : bk.id = X) (hne : bk.id ≠ "")
    (habs : ∀ y ∈ s2, y.id ≠ X) :
    (∀ y, y ∈ (deleteHandler (some bk) s).1 ↔ y ∈ s ∧ y.id ≠ X) ∧
    (deleteHandler (some bk) s2).1 = s2 ∧
    ((deleteHandler (some bk) s).1.filter (fun y => y.id != X)
      = (deleteHandler (some bk) (handleDeleteOptimistic X s)).1 ∧
     (deleteHandler (some bk) (handleDeleteOptimistic X s)).1
      = handleDeleteOptimistic X (deleteHandler (some bk) s).1) ∧
    (∀ y ∈ (deleteHandler (some bk) (handleDeleteOptimistic X s)).1, y.id ≠ X) ∧
    (∀ y ∈ handleDeleteOptimistic X (deleteHandler (some bk) s).1, y.id ≠ X) := by
  rw [deleteHandler_present bk hne]
  simp only [handleDeleteOptimistic, deleteHandler_present bk hne, hbk]
  refine ⟨?_, ?_, ?_, ?_, ?_⟩
  · intro y
    simp [List.mem_filter]
  · rw [List.filter_eq_self]
    intro y hy
    simpa using habs y hy
  · exact ⟨trivial, trivial⟩
  · intro y hy
    simp only [List.mem_filter] at hy
    simpa using hy.2
  · intro y hy
    simp only [List.mem_filter] at hy
    simpa using hy.2

/-- Witness for `deleteMerge_idempotent_orderIndependent` at concrete data. -/
theorem deleteMerge_idempotent_orderIndependent_witness :
    (bkA.id = "a1" ∧ bkA.id ≠ "" ∧ (∀ y ∈ [bkB], y.id ≠ "a1")) ∧
    ((∀ y, y ∈ (deleteHandler (some bkA) [bkA, bkB]).1 ↔
        y ∈ [bkA, bkB] ∧ y.id ≠ "a1") ∧
     (deleteHandler (some bkA) [bkB]).1 = [bkB] ∧
     ((deleteHandler (some bkA) [bkA, bkB]).1.filter (fun y => y.id != "a1")
        = (deleteHandler (some bkA) (handleDeleteOptimistic "a1" [bkA, bkB])).1 ∧
      (deleteHandler (some bkA) (handleDeleteOptimistic "a1" [bkA, bkB])).1
        = handleDeleteOptimistic "a1" (deleteHandler (some bkA) [bkA, bkB]).1) ∧
     (∀ y ∈ (deleteHandler (some bkA) (handleDeleteOptimistic "a1" [bkA, bkB])).1,
        y.id ≠ "a1") ∧
     (∀ y ∈ handleDeleteOptimistic "a1" (deleteHandler (some bkA) [bkA, bkB]).1,
        y.id ≠ "a1")) :=
  ⟨⟨by decide, by decide, by decide⟩,
   deleteMerge_idempotent_orderIndependent [bkA, bkB] [bkB] "a1" bkA
     (by decide) (by decide) (by decide)⟩

lemma nodupIds_mergeInsert (b : Bookmark) (s : List Bookmark)
    (hs : NodupIds s) : NodupIds (mergeInsert b s) := by
  by_cases h : s.any (fun x => x.id == b.id)
  · simpa [mergeInsert, h] using hs
  · have hf : s.any (fun x => x.id == b.id) = false := by simpa using h
    rw [mergeInsert, if_neg (by simp [hf])]
    rw [NodupIds, List.map_cons, List.nodup_cons]
    refine ⟨?_, hs⟩
    intro hmem
    rcases List.mem_map.mp hmem with ⟨x, hx, hid⟩
    have : s.any (fun y => y.id == b.id) = true :=
      List.any_eq_true.mpr ⟨x, hx, by simp [hid]⟩
    rw [hf] at this
    exact Bool.false_ne_true this

lemma nodupIds_filter (p : Bookmark → Bool) (s : List Bookmark)
    (hs : NodupIds s) : NodupIds (s.filter p) :=
  List.Nodup.sublist (List.Sublist.map Bookmark.id (List.filter_sublist s)) hs

/-- C7. The snapshot invariant that no two elements share an `id` is
preserved by every operation of the store: optimistic local insert
(`handleAdd`), incoming full-payload insert merge, both realtime payload
handlers (including their refetch-fallback branches), optimistic local
delete, wholesale replacement by a fetch result whose data satisfies the
invariant, and a failed fetch. -/
theorem nodupIds_preserved (s d : List Bookmark) (b : Bookmark) (X : String)
    (p q : Option Bookmark) (hs : NodupIds s) (hd : NodupIds d) :
    NodupIds (handleAdd b s) ∧
    NodupIds (mergeInsert b s) ∧
    NodupIds ((insertHandler p s).1) ∧
    NodupIds (handleDeleteOptimistic X s) ∧
    NodupIds ((deleteHandler q s).1) ∧
    NodupIds (fetchApply (some d) s) ∧
    NodupIds (fetchApply none s) := by
  have hadd : handleAdd b s = mergeInsert b s := rfl
  refine ⟨?_, nodupIds_mergeInsert b s hs, ?_, nodupIds_filter _ s hs, ?_, hd, hs⟩
  · rw [hadd]; exact nodupIds_mergeInsert b s hs
  · match p with
    | none => exact hs
    | some bp =>
      by_cases hbp : bp.id ≠ ""
      · rw [insertHandler, if_pos hbp]
        exact nodupIds_mergeInsert bp s hs
      · rw [insertHandler, if_neg hbp]
        exact hs
  · match q with
    | none => exact hs
    | some bq =>
      by_cases hbq : bq.id ≠ ""
      · rw [deleteHandler, if_pos hbq]
        exact nodupIds_filter _ s hs
      · rw [deleteHandler, if_neg hbq]
        exact hs

/-- Witness for `nodupIds_preserved` at concrete data. -/
theorem nodupIds_preserved_witness :
    (NodupIds [bkB] ∧ NodupIds [bkA]) ∧
    (NodupIds (handleAdd bkA [bkB]) ∧
     NodupIds (mergeInsert bkA [bkB]) ∧
     NodupIds ((insertHandler (some bkA) [bkB]).1) ∧
     NodupIds (handleDeleteOptimistic "a1" [bkB]) ∧
     NodupIds ((deleteHandler (some bkA) [bkB]).1) ∧
     NodupIds (fetchApply (some [bkA]) [bkB]) ∧
     NodupIds (fetchApply none [bkB])) :=
  ⟨⟨by decide, by decide⟩,
   nodupIds_preserved [bkB] [bkA] bkA "a1" (some bkA) (some bkA)
     (by decide) (by decide)⟩

/-- C8. A redacted insert notification — payload absent, or present without
an `id` — does not merge anything; it leaves the snapshot unchanged and
raises the refetch flag, and the reconciliation fetch that it triggers then
replaces the snapshot wholesale: whatever the prior snapshot, the state
after the fetch returns `S` is exactly `S`. -/
theorem redactedInsert_refetch_replaces (prev S : List Bookmark)
    (bk : Bookmark) (hid : bk.id = "") :
    (insertHandler none prev = (prev, true) ∧
     insertHandler (some bk) prev = (prev, true)) ∧
    (fetchApply (some S) (insertHandler none prev).1 = S ∧
     fetchApply (some S) (insertHandler (some bk) prev).1 = S) := by
  have h1 : insertHandler (some bk) prev = (prev, true) := by
    rw [insertHandler, if_neg (by simp [hid])]
  exact ⟨⟨rfl, h1⟩, rfl, rfl⟩

/-- Witness for `redactedInsert_refetch_replaces` at a concrete redacted
payload. -/
theorem redactedInsert_refetch_replaces_witness :
    bkRedacted.id = "" ∧
    ((insertHandler none [bkB] = ([bkB], true) ∧
      insertHandler (some bkRedacted) [bkB] = ([bkB], true)) ∧
     (fetchApply (some [bkA]) (insertHandler none [bkB]).1 = [bkA] ∧
      fetchApply (some [bkA]) (insertHandler (some bkRedacted) [bkB]).1 = [bkA])) :=
  ⟨by decide, redactedInsert_refetch_replaces [bkB] [bkA] bkRedacted (by decide)⟩

/-- C10. A delete notification whose payload carries no `id` (redacted) is
not dropped: the handler leaves the snapshot unchanged and raises the
refetch flag, and the triggered reconciliation fetch then drives the
snapshot to the authoritative state. -/
theorem redactedDelete_refetch_fallback (prev S : List Bookmark)
    (bk : Bookmark) (hid : bk.id = "") :
    (deleteHandler none prev = (prev, true) ∧
     deleteHandler (some bk) prev = (prev, true)) ∧
    (fetchApply (some S) (deleteHandler none prev).1 = S ∧
     fetchApply (some S) (deleteHandler (some bk) prev).1 = S) := by
  have h1 : deleteHandler (some bk) prev = (prev, true) := by
    rw [deleteHandler, if_neg (by simp [hid])]
  exact ⟨⟨rfl, h1⟩, rfl, rfl⟩

/-- Witness for `redactedDelete_refetch_fallback` at a concrete redacted
payload. -/
theorem redactedDelete_refetch_fallback_witness :
    bkRedacted.id = "" ∧
    ((deleteHandler none [bkB] = ([bkB], true) ∧
      deleteHandler (some bkRedacted) [bkB] = ([bkB], true)) ∧
     (fetchApply (some [bkA]) (deleteHandler none [bkB]).1 = [bkA] ∧
      fetchApply (some [bkA]) (deleteHandler (some bkRedacted) [bkB]).1 = [bkA])) :=
  ⟨by decide, redactedDelete_refetch_fallback [bkB] [bkA] bkRedacted (by decide)⟩

/-! Reconciliation-fetch sequencing. `fetchBookmarks` in
`DashboardClient.tsx` (lines 41-48) issues a query and, when its result
arrives with data, applies it with `setBookmarks(data)`. The code keeps no
record of which fetch is the latest issued; each arriving result is applied
as it lands. The event model below makes both the issue of a fetch and the
arrival of a fetch's result explicit, tagging each arrival with the issue
order of its fetch so that out-of-order arrival can be expressed. -/

/-- Fetch lifecycle events: a fetch being issued, and the result of the
fetch issued `seq`-th arriving (with its data, or `none` on failure). -/
inductive FetchEvent where
  | issue : FetchEvent
  | arrive (seq : Nat) (data : Option (List Bookmark)) : FetchEvent
deriving DecidableEq

/-- Step of the code as written: issuing a fetch changes nothing, and every
arriving result is applied through `fetchApply` regardless of which fetch
it answers — no sequence number is consulted. -/
def stepCodeFetch (bookmarks : List Bookmark) (e : FetchEvent) : List Bookmark :=
  match e with
  | .issue => bookmarks
  | .arrive _ data => fetchApply data bookmarks

/-- Run of the code's fetch handling over a sequence of events. -/
def runCodeFetch (events : List FetchEvent) (init : List Bookmark) : List Bookmark :=
  events.foldl stepCodeFetch init

/-- State demanded by the specification: the snapshot together with the
sequence number of the latest fetch issued. -/
structure SeqFetchState where
  bookmarks : List Bookmark
  latestIssued : Nat
deriving DecidableEq

/-- Spec-side model, following the specification's words rather than the
source (for comparison with `stepCodeFetch`): a monotonically increasing
fetch sequence number is tracked, and a result whose sequence number is
not the latest issued is discarded. -/
def stepSeqTrackedFetch (st : SeqFetchState) (e : FetchEvent) : SeqFetchState :=
  match e with
  | .issue => { st with latestIssued := st.latestIssued + 1 }
  | .arrive seq data =>
      if seq = st.latestIssued then
        { st with bookmarks := fetchApply data st.bookmarks }
      else st

/-- Run of the spec-side sequence-tracked model. -/
def runSeqTrackedFetch (events : List FetchEvent) (st : SeqFetchState) :
    SeqFetchState :=
  events.foldl stepSeqTrackedFetch st

/-- Concrete out-of-order trace: fetch 1 is issued, fetch 2 is issued,
fetch 2's result `[bkA]` arrives and is applied first, then fetch 1's
result `[]` arrives late. -/
def staleTrace : List FetchEvent :=
  [FetchEvent.issue, FetchEvent.issue,
   FetchEvent.arrive 2 (some [bkA]), FetchEvent.arrive 1 (some [])]

/-- C2 counterexample. On the out-of-order trace the code applies fetch 1's
late result over fetch 2's, ending at `[]`, whereas the sequence-tracked
behaviour the claim describes discards the stale result and ends at
`[bkA]`; the two final snapshots differ. The code tracks no sequence
number, so the claim fails as stated. -/
theorem staleFetch_not_discarded :
    runCodeFetch staleTrace [] = [] ∧
    (runSeqTrackedFetch staleTrace ⟨[], 0⟩).bookmarks = [bkA] ∧
    runCodeFetch staleTrace [] ≠ (runSeqTrackedFetch staleTrace ⟨[], 0⟩).bookmarks := by
  refine ⟨rfl, rfl, ?_⟩
  decide

/-- C9. When a reconciliation fetch fails (returns no data), its handling
is a no-op: the snapshot held at the time is left unchanged, and a failed
result arriving after any history of fetch activity leaves the state
exactly as that history left it. -/
theorem fetchApply_none_noop (events : List FetchEvent) (k : Nat)
    (s init : List Bookmark) :
    fetchApply none s = s ∧
    runCodeFetch (events ++ [FetchEvent.arrive k none]) init
      = runCodeFetch events init := by
  refine ⟨rfl, ?_⟩
  rw [runCodeFetch, List.foldl_append]
  rfl

/-- C2 amended. The store keeps no fetch sequence number: every fetch
result that arrives with data replaces the snapshot, so the final snapshot
is the one carried by the last arriving result, whatever was issued or
applied before — arrival order wins, not issue order. -/
theorem fetchResults_applied_in_arrival_order (events : List FetchEvent)
    (k : Nat) (d init : List Bookmark) :
    runCodeFetch (events ++ [FetchEvent.arrive k (some d)]) init = d := by
  rw [runCodeFetch, List.foldl_append]
  rfl

/-! Channel subscription configuration. The realtime `useEffect` of
`DashboardClient.tsx` (lines 57-107) opens one channel and registers two
`postgres_changes` listeners; both configuration objects carry a
server-side `filter` of the form `user_id=eq.<ownerId>` (lines 62-68 and
85-91). -/

/-- Configuration object passed to a `postgres_changes` listener. -/
structure PostgresChangesConfig where
  event : String
  schema : String
  table : String
  filter : Option String
deriving DecidableEq

/-- Configuration of the INSERT listener (lines 62-68): filtered
server-side to the owner's rows. -/
def insertChangesConfig (userId : String) : PostgresChangesConfig :=
  { event := "INSERT", schema := "public", table := "bookmarks",
    filter := some ("user_id=eq." ++ userId) }

/-- Configuration of the DELETE listener (lines 85-91): same server-side
filter. -/
def deleteChangesConfig (userId : String) : PostgresChangesConfig :=
  { event := "DELETE", schema := "public", table := "bookmarks",
    filter := some ("user_id=eq." ++ userId) }

/-- C1 counterexample. For the concrete owner `"u1"` the INSERT listener's
configuration does carry a server-side filter — it is not subscribed
unscoped as the claim states. -/
theorem insertSubscription_is_scoped :
    (insertChangesConfig "u1").filter ≠ none ∧
    (insertChangesConfig "u1").filter = some "user_id=eq.u1" := by
  refine ⟨?_, rfl⟩
  decide

/-- C1 amended. The INSERT subscription is filtered server-side by
`user_id=eq.<ownerId>` for every owner (the DELETE subscription likewise);
the code compensates for redacted payloads not at the subscription but in
the handler, which requests a reconciliation refetch instead of dropping a
payload that carries no usable record. -/
theorem insertSubscription_scoped_with_fallback (userId : String)
    (prev : List Bookmark) :
    (insertChangesConfig userId).filter = some ("user_id=eq." ++ userId) ∧
    (deleteChangesConfig userId).filter = some ("user_id=eq." ++ userId) ∧
    (insertHandler none prev).2 = true :=
  ⟨rfl, rfl, rfl⟩

/-! Local insert flow. `handleSubmit` in `AddBookmarkForm` first awaits the
persistence call (`supabase.from("bookmarks").insert(...)`, lines 188-197)
without touching the snapshot; only when the call returns data does it
invoke `onAdd` (line 208), which is `handleAdd` in `DashboardClient.tsx`;
on failure it sets an error message and returns without any snapshot
change (lines 201-204). -/

/-- Snapshot held while the insert's persistence call is in flight: the
code performs no snapshot mutation between submitting and the call
returning (only the `loading` flag is set), so the snapshot is the prior
one unchanged. -/
def snapshotDuringInsert (prev : List Bookmark) : List Bookmark := prev

/-- Outcome of one `handleSubmit` run once the persistence call returned. -/
structure SubmitOutcome where
  snapshot : List Bookmark
  errorMsg : Option String
deriving DecidableEq

/-- Completion of `handleSubmit`: on success (`data` returned) the record
is handed to `onAdd` = `handleAdd`; on failure an error message is set and
the snapshot is untouched. -/
def handleSubmitComplete (result : Option Bookmark) (prev : List Bookmark) :
    SubmitOutcome :=
  match result with
  | some b => { snapshot := handleAdd b prev, errorMsg := none }
  | none => { snapshot := prev,
              errorMsg := some "Failed to save bookmark. Please try again." }

/-- C3 counterexample. Starting from the empty snapshot and requesting an
insert of `bkA`, the snapshot while the persistence call is in flight is
still empty — the record is not at the head before network confirmation as
the claim states — and after a failed persistence call the snapshot is
still empty, so no added record was rolled back. -/
theorem localInsert_not_optimistic :
    snapshotDuringInsert [] ≠ [bkA] ∧
    (handleSubmitComplete none []).snapshot = [] ∧
    (handleSubmitComplete (some bkA) []).snapshot = [bkA] := by
  refine ⟨?_, rfl, ?_⟩
  · decide
  · decide

/-- C3 amended. The local insert is confirm-then-add, not optimistic: the
snapshot is unchanged while the persistence call is in flight; on success
the returned record is added at the head through the dedup merge; on
failure the snapshot is unchanged (there is nothing to roll back) and the
failure is surfaced as an error message. -/
theorem localInsert_confirm_then_add (prev : List Bookmark) (b : Bookmark) :
    snapshotDuringInsert prev = prev ∧
    (handleSubmitComplete (some b) prev).snapshot = handleAdd b prev ∧
    (handleSubmitComplete none prev).snapshot = prev ∧
    (handleSubmitComplete none prev).errorMsg
      = some "Failed to save bookmark. Please try again." :=
  ⟨rfl, rfl, rfl, rfl⟩

/-! Subscription lifecycle. `DashboardClient.tsx` keeps the realtime
channel in a `useEffect` whose dependency array is only
`[supabase, user.id]` (line 107), while the handler logic reaches the
channel through `fetchBookmarksRef`, a ref cell written in place by a
separate effect with dependency `[fetchBookmarks]` (lines 51-54). The model
below embeds React's effect semantics for exactly these two effects: on
each render an effect re-runs precisely when its dependency values changed
since the last render, and re-running the channel effect first runs the
previous cleanup (`supabase.removeChannel`, line 105) and then subscribes
again. Values that only matter by identity (the memoised client, the
callback) are modelled as numeric identity tokens. -/

/-- Inputs of one render: the identity of the memoised supabase client,
the owner id, and the identity of the current `fetchBookmarks` callback. -/
structure RenderInputs where
  supabaseId : Nat
  userId : String
  fetchId : Nat
deriving DecidableEq

/-- Observable state of the subscription machinery across renders:
how many times the channel was subscribed and removed, the content of
`fetchBookmarksRef`, the last dependency value seen by the ref-sync
effect, and the dependency values under which the live channel was
created (`none` before the first render). -/
structure ChannelState where
  subscribeCount : Nat
  unsubscribeCount : Nat
  refCell : Option Nat
  lastFetchDep : Option Nat
  activeDeps : Option (Nat × String)
deriving DecidableEq

/-- State before the first render: nothing subscribed, ref not yet synced. -/
def initChannelState : ChannelState :=
  { subscribeCount := 0, unsubscribeCount := 0, refCell := none,
    lastFetchDep := none, activeDeps := none }

/-- Effect of lines 52-54: re-runs when `fetchBookmarks` changed and then
writes the new callback into the ref cell in place. -/
def runFetchRefEffect (r : RenderInputs) (st : ChannelState) : ChannelState :=
  if st.lastFetchDep = some r.fetchId then st
  else { st with refCell := some r.fetchId, lastFetchDep := some r.fetchId }

/-- Effect of lines 57-107: re-runs when `(supabase, user.id)` changed;
re-running removes the previous channel (when one exists) and subscribes a
new one. -/
def runChannelEffect (r : RenderInputs) (st : ChannelState) : ChannelState :=
  if st.activeDeps = some (r.supabaseId, r.userId) then st
  else
    match st.activeDeps with
    | some _ =>
        { st with unsubscribeCount := st.unsubscribeCount + 1,
                  subscribeCount := st.subscribeCount + 1,
                  activeDeps := some (r.supabaseId, r.userId) }
    | none =>
        { st with subscribeCount := st.subscribeCount + 1,
                  activeDeps := some (r.supabaseId, r.userId) }

/-- One render: effects run in declaration order, ref sync first. -/
def processRender (st : ChannelState) (r : RenderInputs) : ChannelState :=
  runChannelEffect r (runFetchRefEffect r st)

/-- Run of a sequence of renders. -/
def runRenders (trace : List RenderInputs) (st : ChannelState) : ChannelState :=
  trace.foldl processRender st

lemma processRender_stable (r : RenderInputs) (st : ChannelState)
    (hdeps : st.activeDeps = some (r.supabaseId, r.userId))
    (hinv : ∀ f, st.lastFetchDep = some f → st.refCell = some f) :
    processRender st r =
      { st with refCell := some r.fetchId, lastFetchDep := some r.fetchId } := by
  rw [processRender, runFetchRefEffect]
  by_cases h : st.lastFetchDep = some r.fetchId
  · rw [if_pos h, runChannelEffect, if_pos hdeps]
    have hr := hinv r.fetchId h
    cases st
    simp_all
  · rw [if_neg h, runChannelEffect, if_pos (by simpa using hdeps)]

lemma runRenders_stable (s : Nat) (u : String) :
    ∀ (trace : List RenderInputs) (st : ChannelState),
      st.activeDeps = some (s, u) →
      (∀ f, st.lastFetchDep = some f → st.refCell = some f) →
      (∀ r ∈ trace, r.supabaseId = s ∧ r.userId = u) →
      (runRenders trace st).subscribeCount = st.subscribeCount ∧
      (runRenders trace st).unsubscribeCount = st.unsubscribeCount ∧
      (runRenders trace st).activeDeps = some (s, u) ∧
      (∀ f, (runRenders trace st).lastFetchDep = some f →
        (runRenders trace st).refCell = some f) ∧
      (∀ d, trace ≠ [] →
        (runRenders trace st).refCell = some ((trace.getLastD d).fetchId)) ∧
      (trace = [] → (runRenders trace st).refCell = st.refCell) := by
  intro trace
  induction trace with
  | nil =>
    intro st hdeps hinv _
    exact ⟨rfl, rfl, hdeps, hinv, fun d hne => absurd rfl hne, fun _ => rfl⟩
  | cons r rest ih =>
    intro st hdeps hinv hall
    have hr := hall r (List.mem_cons_self r rest)
    have hrest : ∀ x ∈ rest, x.supabaseId = s ∧ x.userId = u :=
      fun x hx => hall x (List.mem_cons_of_mem r hx)
    have hstep : processRender st r =
        { st with refCell := some r.fetchId, lastFetchDep := some r.fetchId } :=
      processRender_stable r st (by rw [hdeps, hr.1, hr.2]) hinv
    have hrun : runRenders (r :: rest) st = runRenders rest (processRender st r) :=
      rfl
    rw [hrun, hstep]
    have hinv1 : ∀ f,
        ({ st with refCell := some r.fetchId,
                   lastFetchDep := some r.fetchId } : ChannelState).lastFetchDep
          = some f →
        ({ st with refCell := some r.fetchId,
                   lastFetchDep := some r.fetchId } : ChannelState).refCell
          = some f := by
      intro f hf
      simp only at hf ⊢
      exact hf
    obtain ⟨h1, h2, h3, h4, h5, h6⟩ :=
      ih { st with refCell := some r.fetchId, lastFetchDep := some r.fetchId }
        (by simpa using hdeps) hinv1 hrest
    refine ⟨h1, h2, h3, h4, ?_, ?_⟩
    · intro d _
      rw [List.getLastD_cons]
      match rest, h5, h6 with
      | [], _, h6 => simpa [List.getLastD] using h6 rfl
      | x :: xs, h5, _ => exact h5 r (by simp)
    · intro hcontra
      exact absurd hcontra (List.cons_ne_nil r rest)

/-- C4. Over any nonempty sequence of renders in which the memoised client
and the owner id stay fixed while the handler callback's identity changes
arbitrarily, the channel is subscribed exactly once and never removed, and
after every render the indirection cell `fetchBookmarksRef` holds the most
recent callback — replacing the handler logic updates the cell in place
and never causes an unsubscribe followed by a subscribe on the channel. -/
theorem subscription_stable_under_handler_churn (s : Nat) (u : String)
    (r0 : RenderInputs) (trace : List RenderInputs)
    (h0 : r0.supabaseId = s ∧ r0.userId = u)
    (hall : ∀ r ∈ trace, r.supabaseId = s ∧ r.userId = u) :
    (runRenders (r0 :: trace) initChannelState).subscribeCount = 1 ∧
    (runRenders (r0 :: trace) initChannelState).unsubscribeCount = 0 ∧
    (runRenders (r0 :: trace) initChannelState).refCell
      = some ((trace.getLastD r0).fetchId) := by
  have hst1 : processRender initChannelState r0 =
      { subscribeCount := 1, unsubscribeCount := 0,
        refCell := some r0.fetchId, lastFetchDep := some r0.fetchId,
        activeDeps := some (r0.supabaseId, r0.userId) } := by
    rw [processRender, runFetchRefEffect, if_neg (by simp [initChannelState]),
      runChannelEffect]
    rw [if_neg (by simp [initChannelState])]
    rfl
  have hrun : runRenders (r0 :: trace) initChannelState
      = runRenders trace (processRender initChannelState r0) := rfl
  rw [hrun, hst1]
  have hinv1 : ∀ f,
      ({ subscribeCount := 1, unsubscribeCount := 0,
         refCell := some r0.fetchId, lastFetchDep := some r0.fetchId,
         activeDeps := some (r0.supabaseId, r0.userId) } : ChannelState).lastFetchDep
        = some f →
      ({ subscribeCount := 1, unsubscribeCount := 0,
         refCell := some r0.fetchId, lastFetchDep := some r0.fetchId,
         activeDeps := some (r0.supabaseId, r0.userId) } : ChannelState).refCell
        = some f := by
    intro f hf
    simpa using hf
  obtain ⟨h1, h2, _, _, h5, h6⟩ :=
    runRenders_stable s u trace
      { subscribeCount := 1, unsubscribeCount := 0,
        refCell := some r0.fetchId, lastFetchDep := some r0.fetchId,
        activeDeps := some (r0.supabaseId, r0.userId) }
      (by simp [h0.1, h0.2]) hinv1 hall
  refine ⟨h1, h2, ?_⟩
  match trace, h5, h6 with
  | [], _, h6 => simpa [List.getLastD] using h6 rfl
  | x :: xs, h5, _ => exact h5 r0 (by simp)

/-- Witness for `subscription_stable_under_handler_churn`: three renders
with fixed client and owner but a different callback identity each time. -/
theorem subscription_stable_under_handler_churn_witness :
    ((⟨7, "u1", 1⟩ : RenderInputs).supabaseId = 7 ∧
     (⟨7, "u1", 1⟩ : RenderInputs).userId = "u1") ∧
    (∀ r ∈ ([⟨7, "u1", 2⟩, ⟨7, "u1", 3⟩] : List RenderInputs),
      r.supabaseId = 7 ∧ r.userId = "u1") ∧
    ((runRenders (⟨7, "u1", 1⟩ ::
        [⟨7, "u1", 2⟩, ⟨7, "u1", 3⟩]) initChannelState).subscribeCount = 1 ∧
     (runRenders (⟨7, "u1", 1⟩ ::
        [⟨7, "u1", 2⟩, ⟨7, "u1", 3⟩]) initChannelState).unsubscribeCount = 0 ∧
     (runRenders (⟨7, "u1", 1⟩ ::
        [⟨7, "u1", 2⟩, ⟨7, "u1", 3⟩]) initChannelState).refCell
       = some ((([⟨7, "u1", 2⟩, ⟨7, "u1", 3⟩] :
           List RenderInputs).getLastD ⟨7, "u1", 1⟩).fetchId)) :=
  ⟨⟨by decide, by decide⟩, by decide,
   subscription_stable_under_handler_churn 7 "u1" ⟨7, "u1", 1⟩
     [⟨7, "u1", 2⟩, ⟨7, "u1", 3⟩] ⟨by decide, by decide⟩ (by decide)⟩

end BookmarkApp
